import Mathlib

/-!
# Karaoke: song tables and UI messages

A shallow embedding of `songs.h` (note tables, light shows, the song catalog and
`Song::beatDuration`) and of `messages.h` (the UI strings), followed by the
properties of the catalog that are checked against them.

Conventions of the embedding:
* `int` and `long` values are `Int`; the result of `beatDuration` is reduced to the
  32-bit range of `long` explicitly.
* A `float` is the rational number it denotes.  Every initialiser of a `float`
  array goes through `toFloat32`, the round-to-nearest-even conversion to binary32,
  so the tables hold the values the program holds (`0.3` is stored as
  `5033165 / 2^24`, not as `3 / 10`).  On the AVR boards the program is written for,
  `double` is binary32 as well, so a constant is rounded once.
* A pointer to an array is the `List` of the array's elements; a nullable pointer is
  an `Option`.
-/

namespace Karaoke

/-! ## binary32 values -/

/-- Quotient `a / b` rounded to the nearest natural number, ties going to the even one. -/
def roundHalfEven (a b : Nat) : Nat :=
  let f := a / b
  let r := a % b
  if 2 * r < b then f
  else if b < 2 * r then f + 1
  else if f % 2 = 0 then f else f + 1

/-- Exponent `e` with `2^e ≤ n / d < 2^(e+1)`, for positive `n` and `d`. -/
def floorLog2 (n d : Nat) : Int :=
  let e0 : Int := (Nat.log2 n : Int) - (Nat.log2 d : Int)
  if 0 ≤ e0 then
    (if d * 2 ^ e0.toNat ≤ n then e0 else e0 - 1)
  else
    (if d ≤ n * 2 ^ (-e0).toNat then e0 else e0 - 1)

/-- Conversion of a decimal constant to `float` (IEEE binary32): the nearest number with
a 24-bit significand, ties to even, with exponent at least `-126`.  Magnitudes beyond the
largest finite `float` are outside the model; no table entry comes near them. -/
def toFloat32 (q : ℚ) : ℚ :=
  if q = 0 then 0 else
  let n := q.num.natAbs
  let d := q.den
  let e := max (floorLog2 n d) (-126)
  let k : Int := 23 - e
  let m := if 0 ≤ k then roundHalfEven (n * 2 ^ k.toNat) d else roundHalfEven n (d * 2 ^ (-k).toNat)
  let r : ℚ := if 0 ≤ k then mkRat m (2 ^ k.toNat) else ((m * 2 ^ (-k).toNat : Nat) : ℚ)
  if q < 0 then -r else r

/-- Reduction of an integer to the two's-complement range of a `w`-bit signed type. -/
def wrapSigned (w : Nat) (x : Int) : Int :=
  (x + 2 ^ (w - 1)) % 2 ^ w - 2 ^ (w - 1)

/-! ## songs.h -/

/-- Modelled from the spec: `pitches.h` is not among the source files.  A pitch is
"a frequency identifier or a silence marker"; the identifiers that `songs.h` uses are kept
as symbolic names. -/
inductive Pitch where
  | Ab3 | Ab4 | Bb3 | Bb4 | C4 | C5 | D4 | DS4 | Db4 | Db5
  | E4 | Eb4 | Eb5 | F3 | F4 | F5 | FS4 | G4 | Gb4
  deriving DecidableEq

open Pitch

/-- Sixteenth note, `#define STN 1.0/4`. -/
def STN : ℚ := 1.0/4
/-- Eighth note, `#define ETH 2.0/4`. -/
def ETH : ℚ := 2.0/4
/-- Dotted eighth note, `#define DET 3.0/4`. -/
def DET : ℚ := 3.0/4
/-- Quarter note. -/
def QTR : ℚ := 1.0
/-- Dotted quarter note. -/
def DQT : ℚ := 1.5
/-- Half note. -/
def HLF : ℚ := 2.0
/-- Dotted half note. -/
def DHF : ℚ := 3.0
/-- Whole note. -/
def WHL : ℚ := 4.0

/-- A sequence of notes in a song, to be played solo or in polyphony with other such
sequences.  Also stores the corresponding lyrics, if this is a vocal track. -/
structure Track where
  notesN : Int
  startDelay : Int
  lyricsScrollDelay : Int
  pitches : List Pitch
  durations : List ℚ
  liaisons : List ℚ
  /-- can be null, in which case it is ignored -/
  lyrics : Option String
  deriving DecidableEq

/-- One row `bool[4]` of a light show. -/
structure LightRow where
  l0 : Bool
  l1 : Bool
  l2 : Bool
  l3 : Bool
  deriving DecidableEq

/-- A row written with the integer initialisers of the source: nonzero is `true`. -/
def row (a b c d : Nat) : LightRow :=
  ⟨a != 0, b != 0, c != 0, d != 0⟩

/-- A song consists of several tracks, a light show program synced to the melody track,
and a title.  It also knows its BPM. -/
structure Song where
  bpm : Int
  tracksN : Int
  /-- melody at index 0 and is longest track -/
  tracks : List Track
  lightIsOn : List LightRow
  /-- broken into multiple lines due to LCD width constraint -/
  title : List String
  deriving DecidableEq

/-- Milliseconds per beat, `return 60000 / bpm;`.  The quotient is the truncating
division of C++; the constant `60000` does not fit a 16-bit `int`, so the division is
carried out in `long` on AVR and in a 32-bit `int` elsewhere, and the result is a `long`.
Division by zero is undefined behaviour and yields no value. -/
def Song.beatDuration (s : Song) : Option Int :=
  if s.bpm = 0 then none else some (wrapSigned 32 (Int.tdiv 60000 s.bpm))

/-! ### Defying Gravity -/

def defyTitleLineOne : String :=
  "Defying Gravity"

def defyTitleLineTwo : String :=
  ""

def defyTitle : List String := [defyTitleLineOne, defyTitleLineTwo]

/-- Pitches of the Defying Gravity melody track. -/
def defyMelodyPitches : List Pitch :=
  [
    -- No   wiz - ard  that there is   or  wa - as
    Db4,  Gb4,   F4, Eb4,  Db4, Gb4, F4, F4, Eb4,
    -- is   ev - er  gon - na-  (deco) bring-(deco)
    Db4, Gb4, F4, Eb4, Db4, Eb4, F4, F4, Gb4, Eb4,
    -- ME - EE - EE  DOWN --! Look at   her, she's
    Eb5, F5, Db5, Db5, Db5, Bb3, Ab3, Bb3, F3,
    -- wick -ed! Bring  me  DOWN --  --   --   --!
    Bb3,  Ab3,  Ab4, Eb5, Eb5, F5, Eb5, Db5, Db5,
    -- (war cry)
    Ab4, Db5, Eb5, Db5, Eb5, Db5, Bb4, Db5, Eb5, Bb4, Db5
  ]

/-- Durations, in beats, of the Defying Gravity melody track (a float array). -/
def defyMelodyDurations : List ℚ :=
  [
    QTR, ETH, QTR, QTR, QTR, ETH, QTR, ETH, QTR,
    QTR, ETH, QTR, QTR, ETH, STN, STN, QTR, STN, DET,
    HLF, ETH, QTR, WHL, DHF, ETH, ETH, DQT, ETH,
    ETH, DQT, HLF, HLF, ETH, QTR, STN, WHL, DHF,
    DET, STN, STN, STN, STN, STN, STN, STN, ETH, ETH, WHL
  ].map toFloat32

/-- Liaisons, in beats, of the Defying Gravity melody track (a float array). -/
def defyMelodyLiaisons : List ℚ :=
  [
    0.3, 0.3, 0.3, 0.3, 0.3, 0.3, 0.3, 0.3, 0.3,
    0.3, 0.3, 0.3, 0.3, 0, 0, 0.3, 0, 0, 2,
    0, 0, 0.4, 0, 0.3, 0.3, 0.3, 0.3, 0.3,
    0.3, 0.6, 0.05, 0.05, 0, 0, 0, 0, 1.7,
    0.1, 0, 0, 0, 0, 0, 0, 0, 0.1, 0.1, 0
  ].map toFloat32

def defyMelodyLyrics : String :=
  "            "
  ++ "No  wizard  that  there  is or was      "
  ++ "is    ev-  er    gon-  na   bring               "
  ++ "MEEEEEEEEEEEEE   DOWN------------------------!      Look at her,  she's"
  ++ " wicked!      Bring   meeeeee  DOWN-------!                                                      "
  ++ "Ah----------------!"

/-- Pitches of the Defying Gravity harmony track. -/
def defyHarmonyPitches : List Pitch :=
  [
    -- I  hope you're ha - ppy  --
    Db5, Db5,  C5,  Bb4, Ab4, Ab4,
    -- So  we've got  to  bring her
    Bb3,  C4,  Db4, DS4, E4,  FS4
  ]

/-- Durations, in beats, of the Defying Gravity harmony track (a float array). -/
def defyHarmonyDurations : List ℚ :=
  [
    QTR, ETH, QTR, QTR, DQT, HLF,
    QTR, QTR, HLF, HLF, HLF, DQT
  ].map toFloat32

/-- Liaisons, in beats, of the Defying Gravity harmony track (a float array). -/
def defyHarmonyLiaisons : List ℚ :=
  [
    0.3, 0.3, 0.3, 0.3, 0, 6.5,
    0.1, 0.1, 0.1, 0.1, 0.1, 0.1
  ].map toFloat32

def defyHarmonyLyrics : String :=
  "              "
  ++ "I hope you're happ-  y                                                                           "
  ++ "So  we've  got   to      bring    her"

/-- Melody of Defying Gravity, `defyTracks[0]`. -/
def defyMelody : Track :=
  { notesN := 48, startDelay := 2000, lyricsScrollDelay := 200, pitches := defyMelodyPitches,
    durations := defyMelodyDurations, liaisons := defyMelodyLiaisons,
    lyrics := some defyMelodyLyrics }

/-- Harmony of Defying Gravity, `defyTracks[1]`. -/
def defyHarmony : Track :=
  { notesN := 12, startDelay := 13000, lyricsScrollDelay := 200, pitches := defyHarmonyPitches,
    durations := defyHarmonyDurations, liaisons := defyHarmonyLiaisons,
    lyrics := some defyHarmonyLyrics }

def defyTracks : List Track :=
  [defyMelody, defyHarmony]

/-- Light show of Defying Gravity, one row of four lights per entry. -/
def defyLights : List LightRow :=
  [
    row 1 0 0 0,  -- No
    row 0 1 0 0,  -- wiz-
    row 0 0 1 0,  -- ard
    row 0 0 0 1,  -- that
    row 1 0 0 0,  -- there
    row 0 1 0 0,  -- is
    row 0 0 1 0,  -- or
    row 0 0 1 0,  -- wa-
    row 0 0 0 1,  -- as
    row 1 0 0 0,  -- is
    row 0 1 0 0,  -- ev-
    row 0 0 1 0,  -- er
    row 0 0 0 1,  -- gon-
    row 1 0 0 1,  -- na-
    row 1 1 0 1,  -- (deco)
    row 0 0 1 0,  -- (deco)
    row 0 0 1 0,  -- bring-
    row 0 1 0 0,  -- (deco)
    row 0 0 0 1,  -- (deco)
    row 1 0 0 1,  -- ME-
    row 0 1 1 0,  -- EE-
    row 0 0 0 0,  -- EE-
    row 1 1 1 1,  -- DOWN--
    row 1 1 1 1,  -- --!
    row 0 1 0 0,  -- Look
    row 0 0 1 0,  -- at
    row 1 0 0 1,  -- her,
    row 0 1 1 0,  -- she's
    row 0 0 0 1,  -- wick-
    row 0 0 1 1,  -- ed!
    row 1 0 0 0,  -- Bring
    row 1 1 0 0,  -- me
    row 1 1 1 1,  -- DOWN--
    row 1 1 1 0,  -- --
    row 1 1 0 0,  -- --
    row 1 0 0 0,  -- --
    row 1 0 0 0,  -- --!
    row 1 0 0 0,  -- (war cry)
    row 0 0 1 0,
    row 1 0 0 1,
    row 0 1 0 0,
    row 0 0 0 1,
    row 0 0 1 0,
    row 0 1 0 0,
    row 1 0 1 0,
    row 0 1 0 1,
    row 0 0 0 0,
    row 1 1 1 1,
    row 1 1 1 1
  ]

/-! ### Mary Had a Little Lamb -/

def maryTitleLineOne : String :=
  "Mary Had a"

def maryTitleLineTwo : String :=
  "Little Lamb"

def maryTitle : List String := [maryTitleLineOne, maryTitleLineTwo]

/-- Pitches of the Mary Had a Little Lamb melody track. -/
def maryMelodyPitches : List Pitch :=
  [
    E4, D4, C4, D4, E4, E4, E4,
    D4, D4, D4, E4, G4, G4,
    E4, D4, C4, D4, E4, E4, E4,
    E4, D4, D4, E4, D4, C4
  ]

/-- Durations, in beats, of the Mary Had a Little Lamb melody track (a float array). -/
def maryMelodyDurations : List ℚ :=
  [
    QTR, QTR, QTR, QTR, QTR, QTR, HLF,
    QTR, QTR, HLF, QTR, QTR, HLF,
    QTR, QTR, QTR, QTR, QTR, QTR, QTR,
    QTR, QTR, QTR, QTR, QTR, WHL
  ].map toFloat32

/-- Liaisons, in beats, of the Mary Had a Little Lamb melody track (a float array). -/
def maryMelodyLiaisons : List ℚ :=
  [
    0.3, 0.3, 0.3, 0.3, 0.3, 0.3, 0.3,
    0.3, 0.3, 0.3, 0.3, 0.3, 0.3,
    0.3, 0.3, 0.3, 0.3, 0.3, 0.3, 0.3,
    0.3, 0.3, 0.3, 0.3, 0.3, 0.3
  ].map toFloat32

def maryMelodyLyrics : String :=
  "            "
  ++ "Mar-  y   had   a   litt-le   lamb      "
  ++ "Litt-le  lamb,        litt-le  lamb       "
  ++ "Mar-  y   had   a   litt-le  lamb  "
  ++ "Its fleece was white as snow."

/-- Pitches of the Mary Had a Little Lamb harmony track. -/
def maryHarmonyPitches : List Pitch :=
  [
    G4, F4, E4, F4, G4, G4, G4,
    F4, F4, F4, G4, C5, C5,
    G4, F4, E4, F4, G4, G4, G4,
    G4, F4, F4, G4, F4, E4
  ]

/-- Durations, in beats, of the Mary Had a Little Lamb harmony track (a float array). -/
def maryHarmonyDurations : List ℚ :=
  [
    QTR, QTR, QTR, QTR, QTR, QTR, HLF,
    QTR, QTR, HLF, QTR, QTR, HLF,
    QTR, QTR, QTR, QTR, QTR, QTR, QTR,
    QTR, QTR, QTR, QTR, QTR, WHL
  ].map toFloat32

/-- Liaisons, in beats, of the Mary Had a Little Lamb harmony track (a float array). -/
def maryHarmonyLiaisons : List ℚ :=
  [
    0.3, 0.3, 0.3, 0.3, 0.3, 0.3, 0.3,
    0.3, 0.3, 0.3, 0.3, 0.3, 0.3,
    0.3, 0.3, 0.3, 0.3, 0.3, 0.3, 0.3,
    0.3, 0.3, 0.3, 0.3, 0.3, 0.3
  ].map toFloat32

/-- Melody of Mary Had a Little Lamb, `maryTracks[0]`. -/
def maryMelody : Track :=
  { notesN := 26, startDelay := 2000, lyricsScrollDelay := 200, pitches := maryMelodyPitches,
    durations := maryMelodyDurations, liaisons := maryMelodyLiaisons,
    lyrics := some maryMelodyLyrics }

/-- Harmony of Mary Had a Little Lamb, `maryTracks[1]`; its initialiser gives no lyrics,
so the pointer is null. -/
def maryHarmony : Track :=
  { notesN := 26, startDelay := 2000, lyricsScrollDelay := 200, pitches := maryHarmonyPitches,
    durations := maryHarmonyDurations, liaisons := maryHarmonyLiaisons,
    lyrics := none }

def maryTracks : List Track :=
  [maryMelody, maryHarmony]

/-- Light show of Mary Had a Little Lamb, one row of four lights per entry. -/
def maryLights : List LightRow :=
  [
    row 0 1 0 0,  -- Mar-
    row 0 0 1 0,  -- y
    row 1 0 0 0,  -- had
    row 0 0 0 1,  -- a
    row 1 0 0 0,  -- litt-
    row 0 1 0 0,  -- le
    row 0 1 0 0,  -- lamb/
    row 1 0 0 0,  -- Litt-
    row 0 1 0 0,  -- le
    row 0 1 0 0,  -- lamb,
    row 1 0 0 0,  -- litt-
    row 0 0 0 1,  -- le
    row 0 0 0 1,  -- lamb/
    row 0 1 1 0,  -- Mar-
    row 1 1 0 0,  -- y
    row 0 1 1 0,  -- had
    row 0 0 1 1,  -- a
    row 1 0 0 0,  -- litt-
    row 0 1 0 0,  -- le
    row 0 1 0 0,  -- lamb/
    row 0 0 1 0,  -- Its
    row 0 1 0 0,  -- fleece
    row 0 1 0 0,  -- was
    row 0 0 0 1,  -- white
    row 1 0 0 0,  -- as
    row 0 1 0 0  -- snow.
  ]


/-- Defying Gravity, `songs[0]`. -/
def defySong : Song :=
  { bpm := 130, tracksN := 2, tracks := defyTracks, lightIsOn := defyLights, title := defyTitle }

/-- Mary Had a Little Lamb, `songs[1]`. -/
def marySong : Song :=
  { bpm := 150, tracksN := 2, tracks := maryTracks, lightIsOn := maryLights, title := maryTitle }

/-- The song catalog. -/
def songs : List Song :=
  [defySong, marySong]

/-- Number of songs, `sizeof(songs) / sizeof(songs[0])`. -/
def songsN : Int := songs.length

/-! ## messages.h -/

def starting : String := "Starting up..."

def useMonitor1 : String := "Select song in"
def useMonitor2 : String := "Serial Monitor"

def select1 : String := "Select your song! (Enter its number.)"
def select2 : String := "====================================="
def select3 : String := "  1 | Defying Gravity"
def select4 : String := "  2 | Mary Had a Little Lamb"
def select5 : String := "  Q [ Quit program ]"

def invalid : String := "Invalid input. Enter 1, 2, or Q."

def goodbye1 : String := "Thanks for using"
def goodbye2 : String := "Karaoke. Bye!"
def goodbyeSerial : String := "Shutting down..."

/-! ## Quantities the catalog properties are stated with -/

/-- Duration of note `i` of a track, in beats (`durations[i]`). -/
def Track.duration (t : Track) (i : Nat) : ℚ :=
  t.durations.getD i 0

/-- Liaison of note `i` of a track, in beats (`liaisons[i]`). -/
def Track.liaison (t : Track) (i : Nat) : ℚ :=
  t.liaisons.getD i 0

/-- Duration of the note that follows note `i`, taken as `0` when note `i` is the last
note of the track. -/
def Track.nextDuration (t : Track) (i : Nat) : ℚ :=
  if (i : Int) + 1 < t.notesN then t.duration (i + 1) else 0

/-- Modelled from the spec: the player that schedules the notes is not among the source
files.  Onset time of note `i` in milliseconds: the track's start delay plus the durations
of all earlier notes, converted with the song's beat duration `beat`. -/
def onset (beat : Int) (t : Track) : Nat → ℚ
  | 0 => t.startDelay
  | i + 1 => onset beat t i + t.duration i * beat

/-- Modelled from the spec: plain end time of note `i`, its onset plus its duration. -/
def noteEnd (beat : Int) (t : Track) (i : Nat) : ℚ :=
  onset beat t i + t.duration i * beat

/-- Modelled from the spec: liaison-adjusted release time of note `i`,
`onset + (duration + liaison) × beat`. -/
def releaseTime (beat : Int) (t : Track) (i : Nat) : ℚ :=
  onset beat t i + (t.duration i + t.liaison i) * beat

/-- The lines of the selection menu, in the order `messages.h` declares them. -/
def selectLines : List String :=
  [select1, select2, select3, select4, select5]

/-- Value of a run of decimal digits. -/
def digitsValue (ds : List Char) : Nat :=
  ds.foldl (fun n c => 10 * n + (c.toNat - 48)) 0

/-- A numbered menu line has the shape `<blanks><digits> | <title>`; the result is the
number and the title, and `none` for every other line. -/
def numberedEntry (line : String) : Option (Nat × String) :=
  let cs := line.toList.dropWhile (fun c => c == Char.ofNat 32)
  let ds := cs.takeWhile Char.isDigit
  let rest := cs.dropWhile Char.isDigit
  if ds = [] then none
  else if rest.take 3 = " | ".toList then some (digitsValue ds, String.mk (rest.drop 3))
  else none

/-- The numbers written in a text: its maximal runs of decimal digits, in order.  The
second argument is the run being read, if any. -/
def numbersIn : List Char → Option Nat → List Nat
  | [], cur => cur.toList
  | c :: rest, cur =>
    if c.isDigit then numbersIn rest (some (10 * cur.getD 0 + (c.toNat - 48)))
    else cur.toList ++ numbersIn rest none

/-- Title of a song as one line: its non-empty title lines joined by single spaces. -/
def titleText (title : List String) : String :=
  " ".intercalate (title.filter (fun l => l ≠ ""))

/-- The scenario of the spec: a two-note melody with durations `[1.0, 1.0]` and liaisons
`[0.5, 0]`, in a song at 120 bpm. -/
def scenarioTrack : Track :=
  { notesN := 2, startDelay := 0, lyricsScrollDelay := 200, pitches := [C4, D4],
    durations := [1.0, 1.0].map toFloat32, liaisons := [0.5, 0].map toFloat32, lyrics := none }

/-- The song of the scenario, at 120 bpm. -/
def scenarioSong : Song :=
  { bpm := 120, tracksN := 1, tracks := [scenarioTrack],
    lightIsOn := [row 1 0 0 0, row 0 1 0 0], title := ["Scenario", ""] }

/-- A song whose tempo is negative, which the type `int` of `bpm` admits. -/
def negativeTempoSong : Song :=
  { bpm := -120, tracksN := 0, tracks := [], lightIsOn := [], title := [] }

/-! ## Auxiliary facts: the binary32 conversion -/

/-- The rounded quotient is within half a unit of the exact quotient. -/
theorem roundHalfEven_nearest (a b : Nat) (hb : 0 < b) :
    2 * (roundHalfEven a b * b) ≤ 2 * a + b ∧ 2 * a ≤ 2 * (roundHalfEven a b * b) + b := by
  have hdm : b * (a / b) + a % b = a := Nat.div_add_mod a b
  have hr : a % b < b := Nat.mod_lt a hb
  have hc : a / b * b = b * (a / b) := Nat.mul_comm _ _
  have hs : (a / b + 1) * b = b * (a / b) + b := by rw [Nat.add_mul, Nat.one_mul, hc]
  unfold roundHalfEven
  simp only []
  split_ifs <;> simp only [hc, hs] <;> omega

/-- On a tie the rounded quotient is even. -/
theorem roundHalfEven_tie_even (a b : Nat) (h : 2 * (a % b) = b) :
    roundHalfEven a b % 2 = 0 := by
  unfold roundHalfEven
  simp only []
  split_ifs <;> omega

/-- The exponent computed by `floorLog2` brackets the quotient between two consecutive
powers of two. -/
theorem floorLog2_spec (n d : Nat) (hn : 0 < n) (hd : 0 < d) :
    (2 : ℚ) ^ (floorLog2 n d) ≤ (n : ℚ) / d ∧ (n : ℚ) / d < (2 : ℚ) ^ (floorLog2 n d + 1) := by
  have hdq : (0 : ℚ) < d := by exact_mod_cast hd
  have hA1 : ((2 : ℚ) ^ n.log2) ≤ n := by exact_mod_cast Nat.log2_self_le hn.ne'
  have hA2 : (n : ℚ) < (2 : ℚ) ^ (n.log2 + 1) := by exact_mod_cast @Nat.lt_log2_self n
  have hC1 : ((2 : ℚ) ^ d.log2) ≤ d := by exact_mod_cast Nat.log2_self_le hd.ne'
  have hC2 : (d : ℚ) < (2 : ℚ) ^ (d.log2 + 1) := by exact_mod_cast @Nat.lt_log2_self d
  rw [le_div_iff₀ hdq, div_lt_iff₀ hdq]
  unfold floorLog2
  simp only []
  generalize n.log2 = a at *
  generalize d.log2 = c at *
  have h2 : (2 : ℚ) ≠ 0 := by norm_num
  have hpa : (0 : ℚ) < 2 ^ a := by positivity
  have hpc : (0 : ℚ) < 2 ^ c := by positivity
  rcases le_or_lt c a with hca | hca
  · obtain ⟨k, rfl⟩ : ∃ k, a = c + k := ⟨a - c, by omega⟩
    have e1 : ((c + k : Nat) : Int) - (c : Int) = (k : Int) := by push_cast; ring
    rw [e1]
    rw [if_pos (by omega : (0 : Int) ≤ (k : Int))]
    simp only [Int.toNat_ofNat]
    have hk : (0 : ℚ) < 2 ^ k := by positivity
    rw [pow_add] at hA1
    rw [pow_succ, pow_add] at hA2
    rw [pow_succ] at hC2
    split_ifs with h
    · have hq : (d : ℚ) * 2 ^ k ≤ n := by exact_mod_cast h
      constructor
      · rw [zpow_natCast]; linarith
      · rw [show ((k : Int) + 1) = ((k + 1 : Nat) : Int) by push_cast; ring, zpow_natCast, pow_succ]
        nlinarith
    · have hq : (n : ℚ) < d * 2 ^ k := by
        have : n < d * 2 ^ k := by omega
        exact_mod_cast this
      constructor
      · rcases k with _ | j
        · simp at hq hA1 ⊢
          linarith
        · rw [show (((j + 1 : Nat) : Int) - 1) = ((j : Nat) : Int) by push_cast; ring, zpow_natCast]
          rw [pow_succ] at hA1
          have hj : (0 : ℚ) < 2 ^ j := by positivity
          nlinarith
      · rw [show ((k : Int) - 1 + 1) = (k : Int) by ring, zpow_natCast]
        linarith
  · obtain ⟨k, rfl⟩ : ∃ k, c = a + k := ⟨c - a, by omega⟩
    have hk0 : 0 < k := by omega
    have e1 : ((a : Nat) : Int) - ((a + k : Nat) : Int) = -(k : Int) := by push_cast; ring
    rw [e1]
    rw [if_neg (by omega : ¬ (0 : Int) ≤ -(k : Int))]
    simp only [neg_neg, Int.toNat_ofNat]
    have hk : (0 : ℚ) < 2 ^ k := by positivity
    rw [pow_add] at hC1
    rw [pow_succ, pow_add] at hC2
    rw [pow_succ] at hA2
    split_ifs with h
    · have hq : (d : ℚ) ≤ n * 2 ^ k := by exact_mod_cast h
      constructor
      · rw [zpow_neg, zpow_natCast, inv_mul_le_iff₀ hk]; linarith
      · rcases k with _ | j
        · omega
        · rw [show (-((j + 1 : Nat) : Int) + 1) = -((j : Nat) : Int) by push_cast; ring, zpow_neg,
            zpow_natCast]
          have hj : (0 : ℚ) < 2 ^ j := by positivity
          rw [lt_inv_mul_iff₀ hj]
          have h3 : (n : ℚ) * 2 ^ j < 2 ^ a * 2 * 2 ^ j := mul_lt_mul_of_pos_right hA2 hj
          have h4 : (2 : ℚ) ^ a * 2 * 2 ^ j = 2 ^ a * 2 ^ (j + 1) := by rw [pow_succ]; ring
          linarith
    · have hq : (n : ℚ) * 2 ^ k < d := by
        have : n * 2 ^ k < d := by omega
        exact_mod_cast this
      constructor
      · rw [show (-(k : Int) - 1) = -((k + 1 : Nat) : Int) by push_cast; ring, zpow_neg,
          zpow_natCast, inv_mul_le_iff₀ (by positivity), pow_succ]
        nlinarith
      · rw [show (-(k : Int) - 1 + 1) = -(k : Int) by ring, zpow_neg, zpow_natCast,
          lt_inv_mul_iff₀ hk]
        linarith

/-- The conversion of a positive number is a multiple of the unit in the last place and
lies within half that unit of the number. -/
theorem toFloat32_nearest (q : ℚ) (hq : 0 < q) :
    ∃ m : Nat, toFloat32 q = (m : ℚ) * 2 ^ (max (floorLog2 q.num.natAbs q.den) (-126) - 23)
      ∧ 2 * |toFloat32 q - q| ≤ 2 ^ (max (floorLog2 q.num.natAbs q.den) (-126) - 23) := by
  have hd : 0 < q.den := q.den_pos
  have hdq : (0 : ℚ) < (q.den : ℚ) := by exact_mod_cast hd
  have hnum : (0 : Int) < q.num := Rat.num_pos.2 hq
  have hqn : q = (q.num.natAbs : ℚ) / (q.den : ℚ) := by
    have h1 : ((q.num.natAbs : Int) : ℚ) = (q.num : ℚ) := by
      rw [Int.natAbs_of_nonneg hnum.le]
    rw [← Int.cast_natCast q.num.natAbs, h1]
    exact (Rat.num_div_den q).symm
  unfold toFloat32
  rw [if_neg hq.ne']
  simp only []
  rw [if_neg (not_lt.2 hq.le)]
  generalize max (floorLog2 q.num.natAbs q.den) (-126) = e
  generalize q.num.natAbs = n at hqn ⊢
  generalize q.den = d at hqn hd hdq ⊢
  rcases le_or_lt 0 (23 - e) with hk | hk
  · obtain ⟨K, hK⟩ : ∃ K : Nat, 23 - e = (K : Int) := ⟨(23 - e).toNat, by omega⟩
    have he : e - 23 = -(K : Int) := by omega
    rw [if_pos hk, if_pos hk, hK, he]
    simp only [Int.toNat_ofNat]
    have hK2 : (0 : ℚ) < 2 ^ K := by positivity
    have hB : (0 : ℚ) < 2 ^ K * d := mul_pos hK2 hdq
    have hr := roundHalfEven_nearest (n * 2 ^ K) d hd
    generalize roundHalfEven (n * 2 ^ K) d = m at hr ⊢
    have e2 : (mkRat (m : Int) (2 ^ K) : ℚ) = (m : ℚ) * 2 ^ (-(K : Int)) := by
      rw [Rat.mkRat_eq_div, zpow_neg, zpow_natCast]
      push_cast
      rfl
    refine ⟨m, e2, ?_⟩
    rw [e2, zpow_neg, zpow_natCast, hqn]
    have hr1 : (2 : ℚ) * (m * d) ≤ 2 * (n * 2 ^ K) + d := by exact_mod_cast hr.1
    have hr2 : (2 : ℚ) * (n * 2 ^ K) ≤ 2 * (m * d) + d := by exact_mod_cast hr.2
    have key : 2 * |(m : ℚ) * d - n * 2 ^ K| ≤ d := by
      have : |(m : ℚ) * d - n * 2 ^ K| ≤ d / 2 := abs_le.2 ⟨by linarith, by linarith⟩
      linarith
    have e3 : (m : ℚ) * (2 ^ K)⁻¹ - n / d = (m * d - n * 2 ^ K) / (2 ^ K * d) := by
      field_simp
      ring
    have e4 : ((2 : ℚ) ^ K)⁻¹ = d / (2 ^ K * d) := by
      field_simp
    have e5 : 2 * (|(m : ℚ) * d - n * 2 ^ K| / (2 ^ K * d))
        = (2 * |(m : ℚ) * d - n * 2 ^ K|) / (2 ^ K * d) := by ring
    rw [e3, abs_div, abs_of_pos hB, e4, e5, div_le_div_iff_of_pos_right hB]
    exact key
  · obtain ⟨K, hK⟩ : ∃ K : Nat, -(23 - e) = (K : Int) := ⟨(-(23 - e)).toNat, by omega⟩
    have he : e - 23 = (K : Int) := by omega
    rw [if_neg (not_le.2 hk), if_neg (not_le.2 hk), hK, he]
    simp only [Int.toNat_ofNat]
    have hK2 : (0 : ℚ) < 2 ^ K := by positivity
    have hr := roundHalfEven_nearest n (d * 2 ^ K) (Nat.mul_pos hd (by positivity))
    generalize roundHalfEven n (d * 2 ^ K) = m at hr ⊢
    refine ⟨m, by push_cast; rw [zpow_natCast], ?_⟩
    rw [zpow_natCast, hqn]
    have hr1 : (2 : ℚ) * (m * (d * 2 ^ K)) ≤ 2 * n + d * 2 ^ K := by exact_mod_cast hr.1
    have hr2 : (2 : ℚ) * n ≤ 2 * (m * (d * 2 ^ K)) + d * 2 ^ K := by exact_mod_cast hr.2
    have key : 2 * |(m : ℚ) * 2 ^ K * d - n| ≤ 2 ^ K * d := by
      have : |(m : ℚ) * 2 ^ K * d - n| ≤ 2 ^ K * d / 2 := abs_le.2 ⟨by linarith, by linarith⟩
      linarith
    have e3 : ((m * 2 ^ K : Nat) : ℚ) - n / d = (m * 2 ^ K * d - n) / d := by
      push_cast
      field_simp
    have e4 : ((2 : ℚ) ^ K) = (2 ^ K * d) / d := by
      field_simp
    have e5 : 2 * (|(m : ℚ) * 2 ^ K * d - n| / d) = (2 * |(m : ℚ) * 2 ^ K * d - n|) / d := by
      ring
    rw [e3, abs_div, abs_of_pos hdq, e5]
    nth_rewrite 2 [e4]
    rw [div_le_div_iff_of_pos_right hdq]
    exact key

/-- In the normal range the significand of the conversion has 24 bits (or the result is
the next power of two). -/
theorem toFloat32_significand (q : ℚ) (hq : 0 < q)
    (he : -126 ≤ floorLog2 q.num.natAbs q.den) :
    ∃ m : Nat, toFloat32 q = (m : ℚ) * 2 ^ (floorLog2 q.num.natAbs q.den - 23)
      ∧ 2 ^ 23 ≤ m ∧ m ≤ 2 ^ 24 := by
  obtain ⟨m, hm, hnear⟩ := toFloat32_nearest q hq
  rw [max_eq_left he] at hm hnear
  have hnum : (0 : Int) < q.num := Rat.num_pos.2 hq
  have hqn : (q.num.natAbs : ℚ) / (q.den : ℚ) = q := by
    have h1 : ((q.num.natAbs : Int) : ℚ) = (q.num : ℚ) := by
      rw [Int.natAbs_of_nonneg hnum.le]
    rw [← Int.cast_natCast q.num.natAbs, h1]
    exact Rat.num_div_den q
  have hspec := floorLog2_spec q.num.natAbs q.den (Int.natAbs_pos.2 hnum.ne') q.den_pos
  rw [hqn] at hspec
  generalize floorLog2 q.num.natAbs q.den = e at hm hnear hspec ⊢
  have hu : (0 : ℚ) < 2 ^ (e - 23) := by positivity
  have e1 : (2 : ℚ) ^ e = 2 ^ 23 * 2 ^ (e - 23) := by
    rw [← zpow_natCast, ← zpow_add₀ (by norm_num : (2 : ℚ) ≠ 0)]
    congr 1
    push_cast
    ring
  have e2 : (2 : ℚ) ^ (e + 1) = 2 ^ 24 * 2 ^ (e - 23) := by
    rw [← zpow_natCast, ← zpow_add₀ (by norm_num : (2 : ℚ) ≠ 0)]
    congr 1
    push_cast
    ring
  rw [e1, e2] at hspec
  rw [hm] at hnear
  generalize (2 : ℚ) ^ (e - 23) = u at hu hspec hnear hm
  have habs := abs_le.1 (show |(m : ℚ) * u - q| ≤ u / 2 by linarith)
  refine ⟨m, hm, ?_, ?_⟩
  · by_contra hlt
    have h1 : m + 1 ≤ 2 ^ 23 := by omega
    have h2 : (m : ℚ) + 1 ≤ 2 ^ 23 := by exact_mod_cast h1
    nlinarith
  · by_contra hlt
    have h1 : 2 ^ 24 + 1 ≤ m := by omega
    have h2 : (2 : ℚ) ^ 24 + 1 ≤ m := by exact_mod_cast h1
    nlinarith

/-- The constants of the tables at their binary32 values: the decimal liaisons are
rounded (`0.3` is `0x3e99999a`, `0.1` is `0x3dcccccd`), the durations are exact. -/
theorem toFloat32_table_constants :
    [0.3, 0.4, 0.6, 0.05, 0.1, 1.7, 6.5, 2, 0, 0.5].map toFloat32
      = [5033165 / 2 ^ 24, 13421773 / 2 ^ 25, 5033165 / 2 ^ 23, 13421773 / 2 ^ 28,
         13421773 / 2 ^ 27, 7130317 / 2 ^ 22, 13 / 2, 2, 0, 1 / 2]
    ∧ [STN, ETH, DET, QTR, DQT, HLF, DHF, WHL].map toFloat32
      = [1 / 4, 1 / 2, 3 / 4, 1, 3 / 2, 2, 3, 4] := by
  decide!

/-! ## Auxiliary facts: tempo and tables -/

theorem wrapSigned_of_small (x : Int) (h1 : -60000 ≤ x) (h2 : x ≤ 60000) :
    wrapSigned 32 x = x := by
  unfold wrapSigned
  norm_num
  omega

theorem tdiv_bounds (b : Int) : -60000 ≤ Int.tdiv 60000 b ∧ Int.tdiv 60000 b ≤ 60000 := by
  rcases Int.lt_or_le b 0 with hb | hb
  · obtain ⟨c, rfl⟩ : ∃ c : Int, b = -c := ⟨-b, by omega⟩
    have hc : 0 ≤ c := by omega
    rw [Int.tdiv_neg, Int.tdiv_eq_ediv (by norm_num) hc]
    have h1 := @Int.ediv_le_self 60000 c (by norm_num)
    have h2 := @Int.ediv_nonneg 60000 c (by norm_num) hc
    omega
  · rw [Int.tdiv_eq_ediv (by norm_num) hb]
    have h1 := @Int.ediv_le_self 60000 b (by norm_num)
    have h2 := @Int.ediv_nonneg 60000 b (by norm_num) hb
    omega

/-- For a nonzero tempo the division returns the truncated quotient, unchanged by the
reduction to the range of `long`. -/
theorem beatDuration_of_ne_zero (s : Song) (h : s.bpm ≠ 0) :
    s.beatDuration = some (Int.tdiv 60000 s.bpm) := by
  have hb := tdiv_bounds s.bpm
  unfold Song.beatDuration
  rw [if_neg h, wrapSigned_of_small _ hb.1 hb.2]

/-- For a positive tempo the truncated quotient is the floor quotient. -/
theorem beatDuration_of_pos (s : Song) (h : 0 < s.bpm) :
    s.beatDuration = some (60000 / s.bpm) := by
  rw [beatDuration_of_ne_zero s (by omega), Int.tdiv_eq_ediv (by norm_num) h.le]

/-- Every song of the catalog has a positive tempo, hence a positive beat duration. -/
theorem catalog_beat (s : Song) (hs : s ∈ songs) :
    0 < s.bpm ∧ ∃ b : Int, s.beatDuration = some b ∧ 0 < b := by
  have key : ∀ s ∈ songs, 0 < s.bpm ∧ 0 < (60000 : Int) / s.bpm := by decide
  exact ⟨(key s hs).1, _, beatDuration_of_pos s (key s hs).1, (key s hs).2⟩

/-- No duration in the catalog is negative. -/
theorem catalog_duration_nonneg (s : Song) (hs : s ∈ songs) (t : Track) (ht : t ∈ s.tracks)
    (i : Nat) : 0 ≤ t.duration i := by
  have key : ∀ s ∈ songs, ∀ t ∈ s.tracks, ∀ d ∈ t.durations, (0 : ℚ) ≤ d := by decide!
  unfold Track.duration
  rcases Nat.lt_or_ge i t.durations.length with h | h
  · rw [List.getD_eq_getElem _ _ h]
    exact key s hs t ht _ (List.getElem_mem _)
  · rw [List.getD_eq_default _ _ h]

/-- No liaison in the catalog is negative. -/
theorem catalog_liaison_nonneg (s : Song) (hs : s ∈ songs) (t : Track) (ht : t ∈ s.tracks)
    (i : Nat) : 0 ≤ t.liaison i := by
  have key : ∀ s ∈ songs, ∀ t ∈ s.tracks, ∀ d ∈ t.liaisons, (0 : ℚ) ≤ d := by decide!
  unfold Track.liaison
  rcases Nat.lt_or_ge i t.liaisons.length with h | h
  · rw [List.getD_eq_getElem _ _ h]
    exact key s hs t ht _ (List.getElem_mem _)
  · rw [List.getD_eq_default _ _ h]

/-! ## Catalog properties -/

/-- Claim C1 fails on Defying Gravity: its light show `defyLights` has 49 rows while its
melody track declares 48 notes; the light show of Mary Had a Little Lamb has 26 rows
for 26 notes. -/
theorem lights_rows_against_melody_notes :
    songs.map (fun s => ((s.lightIsOn.length : Int), s.tracks.head?.map Track.notesN))
      = [(49, some 48), (26, some 26)] := by
  decide

/-- Claim C2 fails at one note.  Note 5 of the Defying Gravity harmony (a member of the
catalog, index below `notesN = 12`) has liaison 6.5, while its duration plus the duration
of note 6 is 2 + 1 = 3; so the bound of the claim does not hold for every note. -/
theorem defy_harmony_liaison_exceeds_bound :
    defySong ∈ songs ∧ defyHarmony ∈ defySong.tracks ∧ ((5 : Nat) : Int) < defyHarmony.notesN
    ∧ defyHarmony.liaison 5 = 13 / 2
    ∧ defyHarmony.duration 5 + defyHarmony.nextDuration 5 = 3
    ∧ ¬ (0 ≤ defyHarmony.liaison 5
          ∧ defyHarmony.liaison 5 ≤ defyHarmony.duration 5 + defyHarmony.nextDuration 5) := by
  decide!

/-- Claim C2, amended: every liaison of the catalog is non-negative, and every liaison
other than that of note 5 of the Defying Gravity harmony is at most the note's duration
plus the next note's duration (`0` after the last note). -/
theorem liaison_bounds_except_defy_harmony_5 (s : Song) (hs : s ∈ songs) (t : Track)
    (ht : t ∈ s.tracks) (i : Nat) (hi : (i : Int) < t.notesN) :
    0 ≤ t.liaison i
    ∧ (¬ (t = defyHarmony ∧ i = 5) → t.liaison i ≤ t.duration i + t.nextDuration i) := by
  have key : ∀ s ∈ songs, ∀ t ∈ s.tracks, ∀ i < t.notesN.toNat,
      0 ≤ t.liaison i
      ∧ (¬ (t = defyHarmony ∧ i = 5) → t.liaison i ≤ t.duration i + t.nextDuration i) := by
    decide!
  exact key s hs t ht i (by omega)

/-- The amended bound of claim C2 at note 4 of the Defying Gravity harmony. -/
theorem liaison_bounds_except_defy_harmony_5_witness :
    defySong ∈ songs ∧ defyHarmony ∈ defySong.tracks ∧ ((4 : Nat) : Int) < defyHarmony.notesN
    ∧ 0 ≤ defyHarmony.liaison 4
    ∧ (¬ (defyHarmony = defyHarmony ∧ 4 = 5)
        → defyHarmony.liaison 4 ≤ defyHarmony.duration 4 + defyHarmony.nextDuration 4) :=
  ⟨by decide!, by decide!, by decide,
    liaison_bounds_except_defy_harmony_5 defySong (by decide!) defyHarmony (by decide!) 4
      (by decide)⟩

/-- Claim C3: for a positive tempo `beatDuration` returns the integer quotient of 60000
by `bpm`, the unique `d` with `d * bpm ≤ 60000 < (d + 1) * bpm`; the reduction to the
range of `long` leaves it unchanged (no overflow).  At 120 bpm the beat is 500 ms, and
the catalog songs (130 and 150 bpm) have beats of 461 and 400 ms. -/
theorem beatDuration_eq_quotient (s : Song) (h : 0 < s.bpm) :
    s.beatDuration = some (60000 / s.bpm)
    ∧ (60000 / s.bpm) * s.bpm ≤ 60000
    ∧ 60000 < (60000 / s.bpm + 1) * s.bpm
    ∧ (∀ d : Int, d * s.bpm ≤ 60000 → 60000 < (d + 1) * s.bpm → d = 60000 / s.bpm)
    ∧ (s.bpm = 120 → s.beatDuration = some 500)
    ∧ songs.map Song.beatDuration = [some 461, some 400] := by
  have hval := beatDuration_of_pos s h
  refine ⟨hval, Int.ediv_mul_le 60000 (by omega), Int.lt_ediv_add_one_mul_self 60000 h,
    ?_, ?_, ?_⟩
  · intro d h1 h2
    have h3 : d ≤ 60000 / s.bpm := (Int.le_ediv_iff_mul_le h).2 h1
    have h4 : 60000 / s.bpm < d + 1 := (Int.ediv_lt_iff_lt_mul h).2 h2
    omega
  · intro h120
    rw [hval, h120]
    rfl
  · decide

/-- Claim C3 at the scenario song: 120 bpm gives a beat of 500 ms. -/
theorem beatDuration_eq_quotient_witness :
    0 < scenarioSong.bpm ∧ scenarioSong.beatDuration = some 500 :=
  ⟨by decide, (beatDuration_eq_quotient scenarioSong (by decide)).2.2.2.2.1 rfl⟩

/-- Claim C4 fails at a negative tempo: with `bpm = -120` (which is `≤ 0`) the function
does not fail, it returns `-500`. -/
theorem beatDuration_negative_bpm_returns :
    negativeTempoSong.bpm ≤ 0 ∧ negativeTempoSong.beatDuration = some (-500)
    ∧ ¬ ((negativeTempoSong.bpm ≤ 0 → negativeTempoSong.beatDuration = none)
          ∧ (∀ v : Int, negativeTempoSong.beatDuration = some v → 0 < negativeTempoSong.bpm)) := by
  refine ⟨by decide, by decide, fun h => ?_⟩
  have h1 := h.1 (by decide)
  exact absurd h1 (by decide)

/-- Claim C4, amended: `beatDuration` checks nothing and has no `InvalidTempo` failure.
It yields no value exactly when `bpm = 0` (the division by zero); for every negative
`bpm` it returns a value, the quotient rounded toward zero, which is never positive; for
every positive `bpm` it returns a non-negative value. -/
theorem beatDuration_defined_iff_bpm_ne_zero (s : Song) :
    (s.beatDuration = none ↔ s.bpm = 0)
    ∧ (s.bpm < 0 → s.beatDuration = some (-(60000 / -s.bpm)) ∧ -(60000 / -s.bpm) ≤ 0)
    ∧ (0 < s.bpm → s.beatDuration = some (60000 / s.bpm) ∧ 0 ≤ 60000 / s.bpm) := by
  refine ⟨⟨fun h => ?_, fun h => ?_⟩, fun h => ?_, fun h => ?_⟩
  · by_contra h0
    rw [beatDuration_of_ne_zero s h0] at h
    exact absurd h (by simp)
  · unfold Song.beatDuration
    rw [if_pos h]
  · have hn : (0 : Int) ≤ -s.bpm := by omega
    have e : s.bpm = -(-s.bpm) := by omega
    have hq : Int.tdiv 60000 s.bpm = -(60000 / -s.bpm) := by
      rw [← Int.tdiv_eq_ediv (by norm_num) hn, ← Int.tdiv_neg, ← e]
    refine ⟨by rw [beatDuration_of_ne_zero s (by omega), hq], ?_⟩
    have := @Int.ediv_nonneg 60000 (-s.bpm) (by norm_num) hn
    omega
  · exact ⟨beatDuration_of_pos s h, Int.ediv_nonneg (by norm_num) h.le⟩

/-- The amended claim C4 at a tempo of -120 bpm: the value -500 is returned. -/
theorem beatDuration_defined_iff_bpm_ne_zero_witness :
    negativeTempoSong.bpm < 0 ∧ negativeTempoSong.beatDuration = some (-500) :=
  ⟨by decide, ((beatDuration_defined_iff_bpm_ne_zero negativeTempoSong).2.1 (by decide)).1⟩

/-- Claim C5: in every track of every catalog song the declared length `notesN` is the
number of elements of the pitches, durations and liaisons arrays; the declared lengths
are 48 and 12 for Defying Gravity and 26 and 26 for Mary Had a Little Lamb. -/
theorem notesN_eq_array_lengths (s : Song) (hs : s ∈ songs) (t : Track) (ht : t ∈ s.tracks) :
    t.notesN = t.pitches.length ∧ t.notesN = t.durations.length
    ∧ t.notesN = t.liaisons.length
    ∧ songs.map (fun s => s.tracks.map Track.notesN) = [[48, 12], [26, 26]] := by
  have key : ∀ s ∈ songs, ∀ t ∈ s.tracks,
      t.notesN = t.pitches.length ∧ t.notesN = t.durations.length
      ∧ t.notesN = t.liaisons.length := by
    decide
  exact ⟨(key s hs t ht).1, (key s hs t ht).2.1, (key s hs t ht).2.2, by decide⟩

/-- Claim C5 at the melody of Defying Gravity. -/
theorem notesN_eq_array_lengths_witness :
    defySong ∈ songs ∧ defyMelody ∈ defySong.tracks
    ∧ defyMelody.notesN = defyMelody.pitches.length
    ∧ defyMelody.notesN = defyMelody.durations.length
    ∧ defyMelody.notesN = defyMelody.liaisons.length
    ∧ songs.map (fun s => s.tracks.map Track.notesN) = [[48, 12], [26, 26]] :=
  ⟨by decide!, by decide!,
    notesN_eq_array_lengths defySong (by decide!) defyMelody (by decide!)⟩

/-- Claim C6: in every catalog song track 0 exists and is at least as long as every
track of the song, both in declared note count and in total duration in beats. -/
theorem melody_is_longest_track (s : Song) (hs : s ∈ songs) (t : Track) (ht : t ∈ s.tracks) :
    ∃ m : Track, s.tracks[0]? = some m
      ∧ t.notesN ≤ m.notesN ∧ t.durations.sum ≤ m.durations.sum := by
  have key : ∀ s ∈ songs, ∀ t ∈ s.tracks,
      (s.tracks[0]?).isSome = true
      ∧ ∀ m ∈ (s.tracks[0]?).toList, t.notesN ≤ m.notesN ∧ t.durations.sum ≤ m.durations.sum := by
    decide!
  obtain ⟨h1, h2⟩ := key s hs t ht
  obtain ⟨m, hm⟩ := Option.isSome_iff_exists.1 h1
  refine ⟨m, hm, h2 m ?_⟩
  rw [hm]
  simp

/-- Claim C6 at the harmony of Mary Had a Little Lamb. -/
theorem melody_is_longest_track_witness :
    marySong ∈ songs ∧ maryHarmony ∈ marySong.tracks
    ∧ ∃ m : Track, marySong.tracks[0]? = some m
      ∧ maryHarmony.notesN ≤ m.notesN ∧ maryHarmony.durations.sum ≤ m.durations.sum :=
  ⟨by decide!, by decide!,
    melody_is_longest_track marySong (by decide!) maryHarmony (by decide!)⟩

/-- Claim C7: for every track of every catalog song, with the song's beat duration, the
onset sequence starts at the track's start delay and does not decrease from a note to
the next. -/
theorem onset_starts_at_delay_and_monotone (s : Song) (hs : s ∈ songs) (t : Track)
    (ht : t ∈ s.tracks) :
    ∃ b : Int, s.beatDuration = some b
      ∧ onset b t 0 = t.startDelay
      ∧ ∀ i : Nat, (i : Int) < t.notesN → onset b t i ≤ onset b t (i + 1) := by
  obtain ⟨_, b, hb, hpos⟩ := catalog_beat s hs
  refine ⟨b, hb, rfl, fun i _ => ?_⟩
  have hd := catalog_duration_nonneg s hs t ht i
  have hbq : (0 : ℚ) ≤ (b : ℚ) := by exact_mod_cast hpos.le
  have step : onset b t (i + 1) = onset b t i + t.duration i * b := rfl
  rw [step]
  have := mul_nonneg hd hbq
  linarith

/-- Claim C7 at the harmony of Defying Gravity. -/
theorem onset_starts_at_delay_and_monotone_witness :
    defySong ∈ songs ∧ defyHarmony ∈ defySong.tracks
    ∧ ∃ b : Int, defySong.beatDuration = some b
      ∧ onset b defyHarmony 0 = defyHarmony.startDelay
      ∧ ∀ i : Nat, (i : Int) < defyHarmony.notesN
          → onset b defyHarmony i ≤ onset b defyHarmony (i + 1) :=
  ⟨by decide!, by decide!,
    onset_starts_at_delay_and_monotone defySong (by decide!) defyHarmony (by decide!)⟩

/-- Claim C8: for every note of every track of every catalog song, with the song's beat
duration, the liaison-adjusted release time is at least the plain note-end time. -/
theorem release_ge_noteEnd (s : Song) (hs : s ∈ songs) (t : Track) (ht : t ∈ s.tracks)
    (i : Nat) (_hi : (i : Int) < t.notesN) :
    ∃ b : Int, s.beatDuration = some b ∧ noteEnd b t i ≤ releaseTime b t i := by
  obtain ⟨_, b, hb, hpos⟩ := catalog_beat s hs
  refine ⟨b, hb, ?_⟩
  have hl := catalog_liaison_nonneg s hs t ht i
  have hbq : (0 : ℚ) ≤ (b : ℚ) := by exact_mod_cast hpos.le
  have := mul_nonneg hl hbq
  unfold noteEnd releaseTime
  linarith

/-- Claim C8 at note 5 of the harmony of Defying Gravity, the note with liaison 6.5. -/
theorem release_ge_noteEnd_witness :
    defySong ∈ songs ∧ defyHarmony ∈ defySong.tracks ∧ ((5 : Nat) : Int) < defyHarmony.notesN
    ∧ ∃ b : Int, defySong.beatDuration = some b
      ∧ noteEnd b defyHarmony 5 ≤ releaseTime b defyHarmony 5 :=
  ⟨by decide!, by decide!, by decide,
    release_ge_noteEnd defySong (by decide!) defyHarmony (by decide!) 5 (by decide)⟩

/-- Claim C9: every song of the catalog, at any index below `songsN`, has a positive
tempo, so `beatDuration` does not divide by zero and its result is positive. -/
theorem catalog_bpm_pos (i : Nat) (hi : (i : Int) < songsN) :
    ∃ s : Song, songs[i]? = some s ∧ 0 < s.bpm
      ∧ ∃ d : Int, s.beatDuration = some d ∧ 0 < d := by
  have hlen : i < songs.length := by
    unfold songsN at hi
    exact_mod_cast hi
  refine ⟨songs[i], List.getElem?_eq_getElem hlen, ?_⟩
  exact catalog_beat songs[i] (List.getElem_mem hlen)

/-- Claim C9 at index 1, Mary Had a Little Lamb. -/
theorem catalog_bpm_pos_witness :
    ((1 : Nat) : Int) < songsN
    ∧ ∃ s : Song, songs[1]? = some s ∧ 0 < s.bpm
      ∧ ∃ d : Int, s.beatDuration = some d ∧ 0 < d :=
  ⟨by decide, catalog_bpm_pos 1 (by decide)⟩

/-- Claim C10: the numbered lines of the selection menu are as many as the catalog has
songs, line `k` carries the number `k` and the title of `songs[k-1]` (its non-empty
title lines joined by a single space), and the numbers named by the `invalid` message
are exactly `1 .. songsN`. -/
theorem menu_agrees_with_catalog :
    ((selectLines.filterMap numberedEntry).length : Int) = songsN
    ∧ selectLines.filterMap numberedEntry
        = songs.enum.map (fun p => (p.1 + 1, titleText p.2.title))
    ∧ selectLines.filterMap numberedEntry
        = [(1, "Defying Gravity"), (2, "Mary Had a Little Lamb")]
    ∧ numbersIn invalid.toList none = List.range' 1 songs.length := by
  decide

end Karaoke
